import Mathlib

/-!
Shallow embedding of `pkg/k8s/operations.go` from litmusctl.

The Go functions interact with a Kubernetes cluster, an HTTP endpoint, the
local filesystem and an external `kubectl` process.  Each of those external
collaborators is modelled as an oracle (a function from the request the code
sends to the response the world returns); the Go control flow over those
responses is translated directly.  Process termination (`os.Exit`,
`log.Fatal`) is modelled as an explicit outcome constructor, since the Go
function never returns to its caller in those cases.
-/

namespace K8s

/-- An error returned by the Kubernetes API or client construction.
`notFound` is the class of errors recognised by `k8serror.IsNotFound`;
every other error is carried as its message. -/
inductive KErr
  | notFound
  | other (msg : String)
deriving DecidableEq, Repr

/-- Outcome of `clientset.CoreV1().Namespaces().Get(ctx, namespace, ...)`:
the returned object pointer (present or nil) and the returned error. -/
structure GetNsOutcome where
  ns : Option Unit
  err : Option KErr
deriving DecidableEq, Repr

/-- `NsExists` (operations.go:69-84): checks if the given namespace already
exists.  `clientSet` is the outcome of `ClientSet(kubeconfig)` (`some e` when
client construction failed with error `e`), `get` the outcome of the
namespace Get call. -/
def NsExists (clientSet : Option KErr) (get : GetNsOutcome) : Bool × Option KErr :=
  match clientSet with
  | some e => (false, some e)
  | none =>
    match get.err with
    | some .notFound => (false, none)
    | none => if get.ns.isSome then (true, none) else (false, none)
    | some (.other m) => (false, some (.other m))

/-- Go struct `CheckSAPermissionsParams` (operations.go:86-91). -/
structure CheckSAPermissionsParams where
  Verb : String
  Resource : String
  Print : Bool
  Namespace : String
deriving DecidableEq, Repr

/-- The `ResourceAttributes` of the `SelfSubjectAccessReview` the code builds
(operations.go:105-116).  `Group`, `Subresource` and `Name` come from fields
of `CanIOptions` that are never assigned, hence are the empty string. -/
structure ResourceAttributes where
  Namespace : String
  Verb : String
  Group : String
  Resource : String
  Subresource : String
  Name : String
deriving DecidableEq, Repr

/-- The status of a `SelfSubjectAccessReview` response. -/
structure SARStatus where
  Allowed : Bool
  Reason : String
  EvaluationError : String
deriving DecidableEq, Repr

/-- `CheckSAPermissions` (operations.go:93-140).  `clientSet` is the outcome
of client construction; `review` is the server's answer to the access review
created for the given attributes (`.error e` when the Create call fails).
The `Print` parameter only drives console diagnostics, which have no further
effect on the result. -/
def CheckSAPermissions (params : CheckSAPermissionsParams)
    (clientSet : Option KErr)
    (review : ResourceAttributes → Except KErr SARStatus) : Bool × Option KErr :=
  match clientSet with
  | some e => (false, some e)
  | none =>
    match review ⟨params.Namespace, params.Verb, "", params.Resource, "", ""⟩ with
    | .error e => (false, some e)
    | .ok st => (st.Allowed, none)

/-- A pod as far as this code inspects it: its listed identity and phase. -/
structure Pod where
  name : String
  phase : String
deriving DecidableEq, Repr

/-- Outcome of a function that either produces a value or terminates the
process via `log.Fatal`. -/
inductive FatalOr (α : Type)
  | result (a : α)
  | fatal
deriving DecidableEq, Repr

/-- `podExists` (operations.go:230-248): checks if a pod with the given label
already exists in the given namespace.  `clientSet` is the client
construction outcome, `listResult` the pod list returned by the cluster for
the namespace/label selector.  Client or list errors hit `log.Fatal`
(process termination); otherwise the result is `len(items) >= 1`, with no
inspection of any pod's fields. -/
def podExists (clientSet : Option KErr) (listResult : Except KErr (List Pod)) :
    FatalOr Bool :=
  match clientSet with
  | some _ => .fatal
  | none =>
    match listResult with
    | .error _ => .fatal
    | .ok items => .result (decide (items.length ≥ 1))

/-- One event received from the watch stream: the payload either type-checks
as a pod object or it does not (operations.go:207). -/
inductive WatchEvent
  | pod (phase : String)
  | nonPod
deriving DecidableEq, Repr

/-- How a `WatchPod` call ends. -/
inductive WatchOutcome
  | runningFound
  | streamClosed
  | fatal
deriving DecidableEq, Repr

/-- The event loop of `WatchPod` (operations.go:206-217): a non-pod payload
is `log.Fatal`; a pod with phase "Running" stops the watch and breaks; any
other pod continues consuming; an exhausted stream ends the loop and the
function returns normally. -/
def WatchPodLoop : List WatchEvent → WatchOutcome
  | [] => .streamClosed
  | .nonPod :: _ => .fatal
  | .pod phase :: rest =>
    if phase = "Running" then .runningFound else WatchPodLoop rest

/-- `WatchPod` (operations.go:195-218): client construction or watch-open
errors are `log.Fatal`; otherwise the event loop runs over the stream. -/
def WatchPod (clientSet : Option KErr) (watchOpen : Except KErr (List WatchEvent)) :
    WatchOutcome :=
  match clientSet with
  | some _ => .fatal
  | none =>
    match watchOpen with
    | .error _ => .fatal
    | .ok events => WatchPodLoop events

/-- Modelled from the spec: `utils.DefaultNs`, the well-known default
namespace name substituted for empty prompt input (the `utils` package's
definition of this constant is not among the source files). -/
def DefaultNs : String := "litmus"

/-- The cluster-facing method calls `ValidNs` makes, as oracles from the
arguments the code passes to the result the call produces.  `nsExists` is
the result of `kcf.NsExists(namespace, kubeconfig)`; `checkSA` of
`kcf.CheckSAPermissions(params, kubeconfig)`; `delegateExists ns label` of
`kcf.podExists(podExistsParams{ns, label}, kubeconfig)` (with `.fatal` for
its `log.Fatal` paths). -/
structure KubeOracle where
  nsExists : String → Bool × Option KErr
  checkSA : CheckSAPermissionsParams → Bool × Option KErr
  delegateExists : String → String → FatalOr Bool

/-- How a `ValidNs` run ends: an accepted `(namespace, nsExists)` pair, a
process exit (`os.Exit(1)` on bad mode or failed existence check, or a
`log.Fatal` inside `podExists`), or the finite stream of modelled prompt
inputs ran out while the code would re-prompt. -/
inductive ValidNsResult
  | accepted (ns : String) (nsExists : Bool)
  | fatalExit
  | outOfInput
deriving DecidableEq, Repr

/-- What one iteration of the `ValidNs` loop does with the resolved
namespace name: accept it (with the `nsExists` flag), `goto start`
(re-prompt), or terminate the process. -/
inductive NsDecision
  | accept (nsExists : Bool)
  | reprompt
  | exit
deriving DecidableEq, Repr

/-- The body of the `ValidNs` loop after the prompt (operations.go:165-184):
a failing existence check is `os.Exit(1)`; an existing namespace with a
delegate-labeled pod re-prompts; an existing delegate-free namespace is
accepted with `nsExists = true`; a missing namespace is accepted with
`nsExists = false` when the create-namespace permission probe answers
allowed (its error being discarded), and re-prompts otherwise. -/
def validNsDecide (o : KubeOracle) (label ns : String) : NsDecision :=
  match o.nsExists ns with
  | (_, some _) => .exit
  | (true, none) =>
    match o.delegateExists ns label with
    | .fatal => .exit
    | .result true => .reprompt
    | .result false => .accept true
  | (false, none) =>
    if (o.checkSA ⟨"create", "namespace", false, ns⟩).1 then .accept false
    else .reprompt

/-- `ValidNs` (operations.go:143-187): the `goto start` retry loop, with the
successive values read by `fmt.Scanln` supplied as a list.  Each iteration:
an unknown mode is `os.Exit(1)`; empty input defaults to `DefaultNs`; then
`validNsDecide` settles the entered name. -/
def ValidNs (o : KubeOracle) (mode label : String) : List String → ValidNsResult
  | [] => .outOfInput
  | inp :: rest =>
    if mode = "namespace" ∨ mode = "cluster" then
      let ns := if inp = "" then DefaultNs else inp
      match validNsDecide o label ns with
      | .exit => .fatalExit
      | .reprompt => ValidNs o mode label rest
      | .accept ex => .accepted ns ex
    else .fatalExit

/-- Go struct `ApplyYamlPrams` (operations.go:290-294). -/
structure ApplyYamlPrams where
  Token : String
  Endpoint : String
  YamlPath : String
deriving DecidableEq, Repr

/-- An HTTP response as this code consumes it: its status code (which the
code never reads) and the outcome of `ioutil.ReadAll` on its body. -/
structure HttpResp where
  status : Nat
  bodyRead : Except String (List Nat)
deriving Repr

/-- Outcome of `cmd.Run()` together with the captured buffers: `err` is the
execution error (`some` on non-zero exit or start failure), `stdout` and
`stderr` the captured streams. -/
structure ExecOutcome where
  err : Option String
  stdout : String
  stderr : String
deriving DecidableEq, Repr

/-- The external collaborators of `ApplyYaml`: `newReq` the error outcome of
`http.NewRequest("GET", url, nil)`, `doReq` the outcome of
`http.DefaultClient.Do` for the url, `writeFile` the error outcome of
`ioutil.WriteFile(name, body, 0644)`, `run` the outcome of executing the
argument vector. -/
structure ApplyWorld where
  newReq : String → Option String
  doReq : String → Except String HttpResp
  writeFile : String → List Nat → Option String
  run : List String → ExecOutcome

/-- The observable result of an `ApplyYaml` call: the returned
`(output, err)` pair plus the effects performed — the url fetched (if the
remote branch was entered), the cache-file write (name and bytes, if the
write succeeded), and the argument vector of the apply invocation (if it
was reached). -/
structure ApplyEffects where
  output : String
  err : Option String
  fetchedUrl : Option String
  written : Option (String × List Nat)
  applied : Option (List String)
deriving DecidableEq, Repr

/-- The fixed local cache filename (operations.go:313,317). -/
def cacheFile : String := "chaos-delegate-manifest.yaml"

/-- Result of the source-resolution phase of `ApplyYaml`
(operations.go:297-318): the resolved local path or the error returned
early, plus the fetch/write effects performed. -/
structure FetchResult where
  resolved : Except String String
  fetchedUrl : Option String
  written : Option (String × List Nat)
deriving Repr

/-- Source resolution of `ApplyYaml` (operations.go:297-318).  Local: the
supplied path as-is.  Remote: build
`Endpoint + "/" + YamlPath + "/" + Token + ".yaml"`, GET it, write the whole
body to `cacheFile` (overwriting), and resolve to `cacheFile`; any request,
transport, body-read or write error is returned as-is. -/
def fetchManifest (w : ApplyWorld) (params : ApplyYamlPrams) (isLocal : Bool) :
    FetchResult :=
  if isLocal then ⟨.ok params.YamlPath, none, none⟩
  else
    let url := params.Endpoint ++ "/" ++ params.YamlPath ++ "/" ++ params.Token ++ ".yaml"
    match w.newReq url with
    | some e => ⟨.error e, some url, none⟩
    | none =>
      match w.doReq url with
      | .error e => ⟨.error e, some url, none⟩
      | .ok resp =>
        match resp.bodyRead with
        | .error e => ⟨.error e, some url, none⟩
        | .ok body =>
          match w.writeFile cacheFile body with
          | some e => ⟨.error e, some url, none⟩
          | none => ⟨.ok cacheFile, some url, some (cacheFile, body)⟩

/-- The argument vector built for the apply invocation
(operations.go:320-325): `--kubeconfig` is appended exactly when a
kubeconfig path was supplied. -/
def applyArgs (path kubeconfig : String) : List String :=
  if kubeconfig ≠ "" then ["kubectl", "apply", "-f", path, "--kubeconfig", kubeconfig]
  else ["kubectl", "apply", "-f", path]

/-- Error classification of the apply run (operations.go:331-346): on an
execution error with non-empty captured stderr, the stderr text is the
returned error (`fmt.Errorf(errStr)`; the stderr text is passed as the
whole format string with no arguments, modelled as the text itself) and the
output is empty; on an execution error with empty stderr, the execution
error is returned; on success, the captured stdout is returned. -/
def classifyRun (r : ExecOutcome) : String × Option String :=
  match r.err with
  | some e => if r.stderr ≠ "" then ("", some r.stderr) else ("", some e)
  | none => (r.stdout, none)

/-- `ApplyYaml` (operations.go:296-347): resolve the manifest source, then
run the apply command against the resolved path and classify its result.  A
fetch-phase error is returned without invoking apply. -/
def ApplyYaml (w : ApplyWorld) (params : ApplyYamlPrams) (kubeconfig : String)
    (isLocal : Bool) : ApplyEffects :=
  let f := fetchManifest w params isLocal
  match f.resolved with
  | .error e => ⟨"", some e, f.fetchedUrl, f.written, none⟩
  | .ok path =>
    let args := applyArgs path kubeconfig
    let (out, err) := classifyRun (w.run args)
    ⟨out, err, f.fetchedUrl, f.written, some args⟩

/-! ## Theorems -/

/-- Claim C6: `NsExists` returns `(false, nil)` when the cluster API reports
the namespace as not found, `(true, nil)` when the get succeeds, and
`(false, err)` propagating the error when the get fails with any other error
or client construction fails; absence is never reported as an error. -/
theorem nsExists_classification (ce : KErr) (m : String) (get : GetNsOutcome)
    (hns : get.ns.isSome) (hok : get.err = none) :
    NsExists none get = (true, none) ∧
    NsExists none ⟨get.ns, some .notFound⟩ = (false, none) ∧
    NsExists none ⟨get.ns, some (.other m)⟩ = (false, some (.other m)) ∧
    NsExists (some ce) get = (false, some ce) := by
  obtain ⟨ns, err⟩ := get
  simp only [GetNsOutcome.err] at hok
  subst hok
  simp only [GetNsOutcome.ns] at hns ⊢
  refine ⟨?_, rfl, rfl, rfl⟩
  simp [NsExists, hns]

/-- Concrete instance of `nsExists_classification`: a found namespace, a
not-found answer, a transport error, and a failed client construction. -/
theorem nsExists_classification_witness :
    NsExists none ⟨some (), none⟩ = (true, none) ∧
    NsExists none ⟨some (), some .notFound⟩ = (false, none) ∧
    NsExists none ⟨some (), some (.other "boom")⟩ = (false, some (.other "boom")) ∧
    NsExists (some (.other "bad kubeconfig")) ⟨some (), none⟩ =
      (false, some (.other "bad kubeconfig")) :=
  nsExists_classification (.other "bad kubeconfig") "boom" ⟨some (), none⟩ rfl rfl

/-- Claim C7: `CheckSAPermissions` returns `(false, err)` when client
construction or the access-review request fails; when the request succeeds
it returns `(allowed, nil)` with `allowed` exactly the server's decision —
a denial is never returned as an error. -/
theorem checkSA_classification (params : CheckSAPermissionsParams) (ce re : KErr)
    (review reviewOk : ResourceAttributes → Except KErr SARStatus) (st : SARStatus)
    (hok : reviewOk ⟨params.Namespace, params.Verb, "", params.Resource, "", ""⟩ = .ok st)
    (herr : review ⟨params.Namespace, params.Verb, "", params.Resource, "", ""⟩ = .error re) :
    CheckSAPermissions params (some ce) review = (false, some ce) ∧
    CheckSAPermissions params none review = (false, some re) ∧
    CheckSAPermissions params none reviewOk = (st.Allowed, none) := by
  refine ⟨rfl, ?_, ?_⟩
  · simp [CheckSAPermissions, herr]
  · simp [CheckSAPermissions, hok]

/-- Concrete instance of `checkSA_classification`: a failed client, a failed
review request, and a denied decision returned as `(false, nil)`. -/
theorem checkSA_classification_witness :
    CheckSAPermissions ⟨"create", "namespace", false, "litmus"⟩
      (some (.other "bad kubeconfig"))
      (fun _ => .error (.other "timeout")) = (false, some (.other "bad kubeconfig")) ∧
    CheckSAPermissions ⟨"create", "namespace", false, "litmus"⟩ none
      (fun _ => .error (.other "timeout")) = (false, some (.other "timeout")) ∧
    CheckSAPermissions ⟨"create", "namespace", false, "litmus"⟩ none
      (fun _ => .ok ⟨false, "RBAC denied", ""⟩) = (false, none) :=
  checkSA_classification ⟨"create", "namespace", false, "litmus"⟩
    (.other "bad kubeconfig") (.other "timeout")
    (fun _ => .error (.other "timeout")) (fun _ => .ok ⟨false, "RBAC denied", ""⟩)
    ⟨false, "RBAC denied", ""⟩ rfl rfl

/-- Claim C9: `podExists` returns true iff the listed pod set is non-empty,
the result is monotone in the listed item count, and no pod field (in
particular no phase) is inspected: relabelling every pod leaves the result
unchanged. -/
theorem podExists_count (items items2 : List Pod) (f : Pod → Pod)
    (h : items.length ≤ items2.length) :
    (podExists none (.ok items) = .result true ↔ items ≠ []) ∧
    (podExists none (.ok items) = .result false ↔ items = []) ∧
    (podExists none (.ok items) = .result true →
      podExists none (.ok items2) = .result true) ∧
    podExists none (.ok (items.map f)) = podExists none (.ok items) := by
  have hok : ∀ l : List Pod, podExists none (.ok l) = .result (decide (1 ≤ l.length)) :=
    fun l => rfl
  refine ⟨?_, ?_, ?_, ?_⟩
  · rw [hok]
    simp only [FatalOr.result.injEq, decide_eq_true_eq]
    constructor
    · intro h1 hnil
      subst hnil
      simp at h1
    · intro hne
      have := List.length_pos.mpr hne
      omega
  · rw [hok]
    simp only [FatalOr.result.injEq, decide_eq_false_iff_not, not_le]
    constructor
    · intro h1
      exact List.length_eq_zero.mp (by omega)
    · intro hnil
      subst hnil
      simp
  · rw [hok, hok]
    simp only [FatalOr.result.injEq, decide_eq_true_eq]
    intro h1
    omega
  · rw [hok, hok]
    simp

/-- Concrete instance of `podExists_count`: a single terminated pod counts
as existing, and monotonicity towards a longer list holds. -/
theorem podExists_count_witness :
    (podExists none (.ok [Pod.mk "p1" "Failed"]) = .result true ↔
      [Pod.mk "p1" "Failed"] ≠ []) ∧
    podExists none (.ok [Pod.mk "p1" "Failed"]) = .result true :=
  ⟨(podExists_count [Pod.mk "p1" "Failed"]
      [Pod.mk "p1" "Failed", Pod.mk "p2" "Running"] id (by decide)).1,
   ((podExists_count [Pod.mk "p1" "Failed"]
      [Pod.mk "p1" "Failed", Pod.mk "p2" "Running"] id (by decide)).1).mpr (by decide)⟩

/-- On a stream whose payloads all type-check as pods, the watch loop never
hits the `log.Fatal` path. -/
theorem watchPodLoop_ne_fatal (evs : List WatchEvent) (h : WatchEvent.nonPod ∉ evs) :
    WatchPodLoop evs ≠ .fatal := by
  induction evs with
  | nil => simp [WatchPodLoop]
  | cons e rest ih =>
    cases e with
    | nonPod => exact absurd (List.mem_cons_self _ _) h
    | pod ph =>
      have hr : WatchEvent.nonPod ∉ rest := fun hm => h (List.mem_cons_of_mem _ hm)
      by_cases hph : ph = "Running"
      · simp [WatchPodLoop, hph]
      · simpa [WatchPodLoop, hph] using ih hr

/-- On a stream whose payloads all type-check as pods, the watch loop ends
in `runningFound` exactly when some event carries phase "Running". -/
theorem watchPodLoop_running_iff (evs : List WatchEvent) (h : WatchEvent.nonPod ∉ evs) :
    WatchPodLoop evs = .runningFound ↔ WatchEvent.pod "Running" ∈ evs := by
  induction evs with
  | nil => simp [WatchPodLoop]
  | cons e rest ih =>
    cases e with
    | nonPod => exact absurd (List.mem_cons_self _ _) h
    | pod ph =>
      have hr : WatchEvent.nonPod ∉ rest := fun hm => h (List.mem_cons_of_mem _ hm)
      by_cases hph : ph = "Running"
      · subst hph
        simp [WatchPodLoop]
      · rw [List.mem_cons]
        simp only [WatchPodLoop, if_neg hph]
        rw [ih hr]
        constructor
        · exact fun hm => Or.inr hm
        · rintro (heq | hm)
          · injection heq with h2
            exact absurd h2.symm hph
          · exact hm

/-- A non-pod payload preceded only by non-"Running" pods is reached by the
loop and hits `log.Fatal`. -/
theorem watchPodLoop_nonPod_fatal (pre post : List WatchEvent)
    (hpre : ∀ e ∈ pre, e ≠ WatchEvent.nonPod ∧ e ≠ WatchEvent.pod "Running") :
    WatchPodLoop (pre ++ WatchEvent.nonPod :: post) = .fatal := by
  induction pre with
  | nil => rfl
  | cons e pre ih =>
    obtain ⟨hnp, hnr⟩ := hpre e (List.mem_cons_self _ _)
    cases e with
    | nonPod => exact absurd rfl hnp
    | pod ph =>
      have hph : ph ≠ "Running" := fun hh => hnr (by rw [hh])
      simp only [List.cons_append, WatchPodLoop, if_neg hph]
      exact ih fun x hx => hpre x (List.mem_cons_of_mem _ hx)

/-- Claim C8: `WatchPod` consumes events and returns in exactly two cases —
a received pod with phase "Running" (success by return), or the server
closing the stream (return without signaling failure); an event whose
payload is not a pod object causes process termination. -/
theorem watchPod_outcomes (evs pre post : List WatchEvent)
    (hclean : WatchEvent.nonPod ∉ evs)
    (hpre : ∀ e ∈ pre, e ≠ WatchEvent.nonPod ∧ e ≠ WatchEvent.pod "Running") :
    (WatchPod none (.ok evs) = .runningFound ↔ WatchEvent.pod "Running" ∈ evs) ∧
    (WatchPod none (.ok evs) = .streamClosed ↔ WatchEvent.pod "Running" ∉ evs) ∧
    WatchPod none (.ok (pre ++ WatchEvent.nonPod :: post)) = .fatal := by
  have hwp : ∀ l : List WatchEvent, WatchPod none (.ok l) = WatchPodLoop l := fun l => rfl
  simp only [hwp]
  refine ⟨watchPodLoop_running_iff evs hclean, ?_, watchPodLoop_nonPod_fatal pre post hpre⟩
  constructor
  · intro hs hm
    have hrun := (watchPodLoop_running_iff evs hclean).mpr hm
    rw [hs] at hrun
    exact WatchOutcome.noConfusion hrun
  · intro hm
    cases hcase : WatchPodLoop evs with
    | runningFound => exact absurd ((watchPodLoop_running_iff evs hclean).mp hcase) hm
    | streamClosed => rfl
    | fatal => exact absurd hcase (watchPodLoop_ne_fatal evs hclean)

/-- Concrete instance of `watchPod_outcomes`: a Pending-then-Running stream
succeeds, an all-Pending closed stream returns silently, and a non-pod
payload is fatal. -/
theorem watchPod_outcomes_witness :
    WatchPod none (.ok [WatchEvent.pod "Pending", WatchEvent.pod "Running"]) =
      .runningFound ∧
    WatchPod none (.ok [WatchEvent.pod "Pending", WatchEvent.nonPod]) = .fatal := by
  have h := watchPod_outcomes [WatchEvent.pod "Pending", WatchEvent.pod "Running"]
    [WatchEvent.pod "Pending"] [] (by decide) (by decide)
  exact ⟨h.1.mpr (by decide), h.2.2⟩

/-- A namespace whose decision is `reprompt` is never the accepted result of
the `ValidNs` loop, whatever the other inputs do. -/
theorem validNs_reprompt_never_accepted (o : KubeOracle) (mode label N : String)
    (inputs : List String) (b : Bool)
    (hdec : validNsDecide o label N = .reprompt) :
    ValidNs o mode label inputs ≠ .accepted N b := by
  induction inputs with
  | nil => simp [ValidNs]
  | cons inp rest ih =>
    simp only [ValidNs]
    split
    · cases hcase : validNsDecide o label (if inp = "" then DefaultNs else inp) with
      | exit => exact fun hc => ValidNsResult.noConfusion hc
      | reprompt => exact ih
      | accept ex =>
        intro hc
        injection hc with h1 h2
        rw [h1, hdec] at hcase
        exact NsDecision.noConfusion hcase
    · exact fun hc => ValidNsResult.noConfusion hc

/-- Claim C1: if the namespace existence check answers `(false, nil)` for N
and the create-namespace permission probe does not answer allowed, `ValidNs`
never returns N as its accepted result; it re-prompts instead. -/
theorem validNs_never_accepts_uncreatable (o : KubeOracle) (mode label N : String)
    (inputs : List String) (b : Bool)
    (hns : o.nsExists N = (false, none))
    (hperm : (o.checkSA ⟨"create", "namespace", false, N⟩).1 = false) :
    ValidNs o mode label inputs ≠ .accepted N b :=
  validNs_reprompt_never_accepted o mode label N inputs b
    (by simp [validNsDecide, hns, hperm])

/-- A world where no namespace exists and the identity can create nothing:
`ValidNs` rejects "litmus" however often it is entered. -/
theorem validNs_never_accepts_uncreatable_witness :
    ValidNs
      ⟨fun _ => (false, none), fun _ => (false, none), fun _ _ => .result false⟩
      "cluster" "app=chaos-delegate" ["litmus", "litmus", ""] ≠
      .accepted "litmus" false :=
  validNs_never_accepts_uncreatable
    ⟨fun _ => (false, none), fun _ => (false, none), fun _ _ => .result false⟩
    "cluster" "app=chaos-delegate" "litmus" ["litmus", "litmus", ""] false rfl rfl

/-- Claim C2: if the namespace exists and a pod matching the delegate label
selector exists in it, `ValidNs` never returns it as its accepted result,
regardless of the identity's permissions; it re-prompts instead. -/
theorem validNs_never_accepts_occupied (o : KubeOracle) (mode label N : String)
    (inputs : List String) (b : Bool)
    (hns : o.nsExists N = (true, none))
    (hpod : o.delegateExists N label = .result true) :
    ValidNs o mode label inputs ≠ .accepted N b :=
  validNs_reprompt_never_accepted o mode label N inputs b
    (by simp [validNsDecide, hns, hpod])

/-- A world where "litmus" exists and already runs a delegate-labeled pod,
and all permissions are granted: `ValidNs` still rejects it. -/
theorem validNs_never_accepts_occupied_witness :
    ValidNs
      ⟨fun _ => (true, none), fun _ => (true, none), fun _ _ => .result true⟩
      "cluster" "app=chaos-delegate" ["litmus", ""] ≠
      .accepted "litmus" true :=
  validNs_never_accepts_occupied
    ⟨fun _ => (true, none), fun _ => (true, none), fun _ _ => .result true⟩
    "cluster" "app=chaos-delegate" "litmus" ["litmus", ""] true rfl rfl

/-- Claim C5: an entered namespace that does not exist, when the
create-namespace permission probe answers allowed, is returned immediately
with the flag `false` (not pre-existing). -/
theorem validNs_accepts_creatable (o : KubeOracle) (mode label N : String)
    (rest : List String)
    (hmode : mode = "namespace" ∨ mode = "cluster") (hN : N ≠ "")
    (hns : o.nsExists N = (false, none))
    (hperm : (o.checkSA ⟨"create", "namespace", false, N⟩).1 = true) :
    ValidNs o mode label (N :: rest) = .accepted N false := by
  have hdec : validNsDecide o label N = .accept false := by
    simp [validNsDecide, hns, hperm]
  simp only [ValidNs, if_pos hmode, if_neg hN, hdec]

/-- A world where "litmus" does not exist but is creatable: entering
"litmus" yields `("litmus", false)`. -/
theorem validNs_accepts_creatable_witness :
    ValidNs
      ⟨fun _ => (false, none), fun _ => (true, none), fun _ _ => .result false⟩
      "cluster" "app=chaos-delegate" ["litmus"] = .accepted "litmus" false :=
  validNs_accepts_creatable
    ⟨fun _ => (false, none), fun _ => (true, none), fun _ _ => .result false⟩
    "cluster" "app=chaos-delegate" "litmus" [] (Or.inr rfl) (by decide) rfl rfl

/-- Case analysis of the run-result classification. -/
theorem classifyRun_cases (r : ExecOutcome) :
    (∀ e, r.err = some e → r.stderr ≠ "" → classifyRun r = ("", some r.stderr)) ∧
    (∀ e, r.err = some e → r.stderr = "" → classifyRun r = ("", some e)) ∧
    (r.err = none → classifyRun r = (r.stdout, none)) := by
  obtain ⟨oerr, so, se⟩ := r
  cases oerr with
  | none =>
    exact ⟨fun e he => Option.noConfusion he, fun e he => Option.noConfusion he,
      fun _ => rfl⟩
  | some e0 =>
    refine ⟨fun e he hse => ?_, fun e he hse => ?_, fun he => Option.noConfusion he⟩
    · simp only [classifyRun]
      rw [if_pos hse]
    · injection he with h
      subst h
      simp only [classifyRun]
      rw [if_neg (fun hc => hc hse)]

/-- When the fetch phase resolves to a path, `ApplyYaml` runs the apply
command against that path and classifies its captured result. -/
theorem applyYaml_fetch_ok (w : ApplyWorld) (params : ApplyYamlPrams)
    (kubeconfig p : String) (isLocal : Bool) (u : Option String)
    (wr : Option (String × List Nat))
    (h : fetchManifest w params isLocal = ⟨.ok p, u, wr⟩) :
    ApplyYaml w params kubeconfig isLocal =
      ⟨(classifyRun (w.run (applyArgs p kubeconfig))).1,
       (classifyRun (w.run (applyArgs p kubeconfig))).2, u, wr,
       some (applyArgs p kubeconfig)⟩ := by
  rcases hcr : classifyRun (w.run (applyArgs p kubeconfig)) with ⟨out, err⟩
  simp [ApplyYaml, h, hcr]

/-- When the fetch phase fails, `ApplyYaml` returns that error and does not
invoke apply. -/
theorem applyYaml_fetch_error (w : ApplyWorld) (params : ApplyYamlPrams)
    (kubeconfig e : String) (u : Option String) (wr : Option (String × List Nat))
    (h : fetchManifest w params false = ⟨.error e, u, wr⟩) :
    ApplyYaml w params kubeconfig false = ⟨"", some e, u, wr, none⟩ := by
  simp [ApplyYaml, h]

/-- A successful remote fetch: the body is cached and the path resolves to
the cache file. -/
theorem fetchManifest_remote_ok (w : ApplyWorld) (params : ApplyYamlPrams)
    (url : String) (resp : HttpResp) (body : List Nat)
    (hurl : url = params.Endpoint ++ "/" ++ params.YamlPath ++ "/" ++ params.Token ++ ".yaml")
    (h1 : w.newReq url = none) (h2 : w.doReq url = .ok resp)
    (h3 : resp.bodyRead = .ok body) (h4 : w.writeFile cacheFile body = none) :
    fetchManifest w params false = ⟨.ok cacheFile, some url, some (cacheFile, body)⟩ := by
  subst hurl
  simp [fetchManifest, h1, h2, h3, h4]

/-- The remote branch always records the url it builds, whatever the fetch
outcome. -/
theorem fetchManifest_fetchedUrl (w : ApplyWorld) (params : ApplyYamlPrams) :
    (fetchManifest w params false).fetchedUrl =
      some (params.Endpoint ++ "/" ++ params.YamlPath ++ "/" ++ params.Token ++ ".yaml") := by
  simp only [fetchManifest, Bool.false_eq_true, if_false]
  split
  · rfl
  · split
    · rfl
    · split
      · rfl
      · split <;> rfl

/-- `ApplyYaml` reports the url recorded by the fetch phase. -/
theorem applyYaml_fetchedUrl_eq (w : ApplyWorld) (params : ApplyYamlPrams)
    (kubeconfig : String) (isLocal : Bool) :
    (ApplyYaml w params kubeconfig isLocal).fetchedUrl =
      (fetchManifest w params isLocal).fetchedUrl := by
  simp only [ApplyYaml]
  split <;> rfl

/-- Claim C3: if the apply command exits non-zero with non-empty captured
stderr, `ApplyYaml` returns an error that is exactly the stderr text with an
empty output; non-zero with empty stderr returns the underlying execution
error; a zero exit returns the captured stdout with no error. -/
theorem applyYaml_error_classification (w : ApplyWorld) (params : ApplyYamlPrams)
    (kubeconfig : String) (isLocal : Bool) (p e : String)
    (hf : (fetchManifest w params isLocal).resolved = .ok p) :
    ((w.run (applyArgs p kubeconfig)).err = some e →
      (w.run (applyArgs p kubeconfig)).stderr ≠ "" →
      (ApplyYaml w params kubeconfig isLocal).output = "" ∧
      (ApplyYaml w params kubeconfig isLocal).err =
        some (w.run (applyArgs p kubeconfig)).stderr) ∧
    ((w.run (applyArgs p kubeconfig)).err = some e →
      (w.run (applyArgs p kubeconfig)).stderr = "" →
      (ApplyYaml w params kubeconfig isLocal).output = "" ∧
      (ApplyYaml w params kubeconfig isLocal).err = some e) ∧
    ((w.run (applyArgs p kubeconfig)).err = none →
      (ApplyYaml w params kubeconfig isLocal).output =
        (w.run (applyArgs p kubeconfig)).stdout ∧
      (ApplyYaml w params kubeconfig isLocal).err = none) := by
  have hfull : fetchManifest w params isLocal =
      ⟨.ok p, (fetchManifest w params isLocal).fetchedUrl,
       (fetchManifest w params isLocal).written⟩ := by
    rw [← hf]
  have hkey := applyYaml_fetch_ok w params kubeconfig p isLocal
    (fetchManifest w params isLocal).fetchedUrl
    (fetchManifest w params isLocal).written hfull
  have hcr := classifyRun_cases (w.run (applyArgs p kubeconfig))
  refine ⟨?_, ?_, ?_⟩
  · intro he hne
    rw [hkey, hcr.1 e he hne]
    exact ⟨rfl, rfl⟩
  · intro he hse
    rw [hkey, hcr.2.1 e he hse]
    exact ⟨rfl, rfl⟩
  · intro he
    rw [hkey, hcr.2.2 he]
    exact ⟨rfl, rfl⟩

/-- Concrete instance of `applyYaml_error_classification`: a local apply
whose command fails with stderr "permission denied: default/x" yields
exactly that error text and an empty output. -/
theorem applyYaml_error_classification_witness :
    (ApplyYaml
      ⟨fun _ => none, fun _ => .error "no network", fun _ _ => none,
       fun _ => ⟨some "exit status 1", "", "permission denied: default/x"⟩⟩
      ⟨"tok", "ep", "m.yaml"⟩ "" true).output = "" ∧
    (ApplyYaml
      ⟨fun _ => none, fun _ => .error "no network", fun _ _ => none,
       fun _ => ⟨some "exit status 1", "", "permission denied: default/x"⟩⟩
      ⟨"tok", "ep", "m.yaml"⟩ "" true).err = some "permission denied: default/x" :=
  (applyYaml_error_classification
    ⟨fun _ => none, fun _ => .error "no network", fun _ _ => none,
     fun _ => ⟨some "exit status 1", "", "permission denied: default/x"⟩⟩
    ⟨"tok", "ep", "m.yaml"⟩ "" true "m.yaml" "exit status 1" rfl).1 rfl (by decide)

/-- Claim C4: with `isLocal = false` the fetch url is built exactly as
`Endpoint + "/" + YamlPath + "/" + Token + ".yaml"`; on a successful fetch
the whole response body is written to the fixed cache file and apply runs
against that cache path; any request, transport, body-read or file-write
failure is returned without invoking apply. -/
theorem applyYaml_remote (w : ApplyWorld) (params : ApplyYamlPrams)
    (kubeconfig e url : String) (resp : HttpResp) (body : List Nat)
    (hurl : url = params.Endpoint ++ "/" ++ params.YamlPath ++ "/" ++ params.Token ++ ".yaml") :
    (ApplyYaml w params kubeconfig false).fetchedUrl = some url ∧
    (w.newReq url = none → w.doReq url = .ok resp → resp.bodyRead = .ok body →
      w.writeFile cacheFile body = none →
      (ApplyYaml w params kubeconfig false).written = some (cacheFile, body) ∧
      (ApplyYaml w params kubeconfig false).applied =
        some (applyArgs cacheFile kubeconfig)) ∧
    (w.newReq url = some e →
      ApplyYaml w params kubeconfig false = ⟨"", some e, some url, none, none⟩) ∧
    (w.newReq url = none → w.doReq url = .error e →
      ApplyYaml w params kubeconfig false = ⟨"", some e, some url, none, none⟩) ∧
    (w.newReq url = none → w.doReq url = .ok resp → resp.bodyRead = .error e →
      ApplyYaml w params kubeconfig false = ⟨"", some e, some url, none, none⟩) ∧
    (w.newReq url = none → w.doReq url = .ok resp → resp.bodyRead = .ok body →
      w.writeFile cacheFile body = some e →
      ApplyYaml w params kubeconfig false = ⟨"", some e, some url, none, none⟩) := by
  refine ⟨?_, ?_, ?_, ?_, ?_, ?_⟩
  · rw [applyYaml_fetchedUrl_eq, fetchManifest_fetchedUrl, hurl]
  · intro h1 h2 h3 h4
    have hf := fetchManifest_remote_ok w params url resp body hurl h1 h2 h3 h4
    rw [applyYaml_fetch_ok w params kubeconfig cacheFile false (some url)
      (some (cacheFile, body)) hf]
    exact ⟨rfl, rfl⟩
  · intro h1
    subst hurl
    exact applyYaml_fetch_error w params kubeconfig e _ _ (by simp [fetchManifest, h1])
  · intro h1 h2
    subst hurl
    exact applyYaml_fetch_error w params kubeconfig e _ _
      (by simp [fetchManifest, h1, h2])
  · intro h1 h2 h3
    subst hurl
    exact applyYaml_fetch_error w params kubeconfig e _ _
      (by simp [fetchManifest, h1, h2, h3])
  · intro h1 h2 h3 h4
    subst hurl
    exact applyYaml_fetch_error w params kubeconfig e _ _
      (by simp [fetchManifest, h1, h2, h3, h4])

/-- A world for exercising the remote fetch path: the GET succeeds with an
HTTP 404 response carrying a two-byte body, the file write succeeds, and the
apply command exits zero with stdout "applied". -/
def remoteWorld : ApplyWorld where
  newReq := fun _ => none
  doReq := fun _ => .ok ⟨404, .ok [104, 105]⟩
  writeFile := fun _ _ => none
  run := fun _ => ⟨none, "applied", ""⟩

/-- Concrete instance of `applyYaml_remote`: the url for endpoint
"https://cc.example", path "manifests" and token "tok123", the cached body,
and the apply invocation against the cache file. -/
theorem applyYaml_remote_witness :
    (ApplyYaml remoteWorld ⟨"tok123", "https://cc.example", "manifests"⟩ "" false).fetchedUrl =
      some "https://cc.example/manifests/tok123.yaml" ∧
    (ApplyYaml remoteWorld ⟨"tok123", "https://cc.example", "manifests"⟩ "" false).written =
      some (cacheFile, [104, 105]) ∧
    (ApplyYaml remoteWorld ⟨"tok123", "https://cc.example", "manifests"⟩ "" false).applied =
      some (applyArgs cacheFile "") := by
  have h := applyYaml_remote remoteWorld ⟨"tok123", "https://cc.example", "manifests"⟩
    "" "unused" "https://cc.example/manifests/tok123.yaml" ⟨404, .ok [104, 105]⟩
    [104, 105] rfl
  exact ⟨h.1, (h.2.1 rfl rfl rfl rfl).1, (h.2.1 rfl rfl rfl rfl).2⟩

/-- Claim C10: in the remote mode, whenever the GET transport succeeds —
whatever the HTTP status code of the response — the body is written to the
cache file and the apply step proceeds on it; a non-2xx response is never
detected or reported as a fetch error. -/
theorem applyYaml_ignores_status (w : ApplyWorld) (params : ApplyYamlPrams)
    (kubeconfig url : String) (status : Nat) (body : List Nat)
    (hurl : url = params.Endpoint ++ "/" ++ params.YamlPath ++ "/" ++ params.Token ++ ".yaml")
    (h1 : w.newReq url = none)
    (h2 : w.doReq url = .ok ⟨status, .ok body⟩)
    (h3 : w.writeFile cacheFile body = none) :
    ApplyYaml w params kubeconfig false =
      ⟨(classifyRun (w.run (applyArgs cacheFile kubeconfig))).1,
       (classifyRun (w.run (applyArgs cacheFile kubeconfig))).2,
       some url, some (cacheFile, body), some (applyArgs cacheFile kubeconfig)⟩ :=
  applyYaml_fetch_ok w params kubeconfig cacheFile false (some url)
    (some (cacheFile, body))
    (fetchManifest_remote_ok w params url ⟨status, .ok body⟩ body hurl h1 h2 rfl h3)

/-- Concrete instance of `applyYaml_ignores_status`: a 404 response body is
cached and applied, and the call reports the apply command's success, not a
fetch error. -/
theorem applyYaml_ignores_status_witness :
    ApplyYaml remoteWorld ⟨"tok123", "https://cc.example", "manifests"⟩ "" false =
      ⟨"applied", none, some "https://cc.example/manifests/tok123.yaml",
       some (cacheFile, [104, 105]), some ["kubectl", "apply", "-f", cacheFile]⟩ := by
  have h := applyYaml_ignores_status remoteWorld
    ⟨"tok123", "https://cc.example", "manifests"⟩ ""
    "https://cc.example/manifests/tok123.yaml" 404 [104, 105] rfl rfl rfl rfl
  rw [h]
  rfl

end K8s
